import Mathlib

/-!
# ILI9486 display driver (`main/main.c`): protocol layer

A shallow embedding of the command/data framing, the bring-up script and the
windowed raster writer of `main.c`.  Every driver function is a computation
over an explicit bus state (the events issued so far) and a transport that
decides, transfer by transfer, which `esp_err_t` the blocking SPI call returns.
`assert(ret == ESP_OK)` aborts the computation.
-/

namespace TFT

/-! ## Constants of `main.c` -/

def TFT_DC : Nat := 21

def TFT_WIDTH : Int := 480
def TFT_HEIGHT : Int := 320

def ILI9486_SWRESET : Nat := 0x01
def ILI9486_SLPOUT : Nat := 0x11
def ILI9486_NORON : Nat := 0x13
def ILI9486_DISPON : Nat := 0x29
def ILI9486_CASET : Nat := 0x2A
def ILI9486_PASET : Nat := 0x2B
def ILI9486_RAMWR : Nat := 0x2C
def ILI9486_MADCTL : Nat := 0x36
def ILI9486_PIXFMT : Nat := 0x3A
def ILI9486_FRMCTR1 : Nat := 0xB1
def ILI9486_INVCTR : Nat := 0xB4
def ILI9486_DFUNCTR : Nat := 0xB6
def ILI9486_PWCTR1 : Nat := 0xC0
def ILI9486_PWCTR2 : Nat := 0xC1
def ILI9486_PWCTR3 : Nat := 0xC2
def ILI9486_VMCTR1 : Nat := 0xC5
def ILI9486_GMCTRP1 : Nat := 0xE0
def ILI9486_GMCTRN1 : Nat := 0xE1

def TFT_RED : Nat := 0xF800

/-- The `esp_err_t` value of a successful call. -/
def ESP_OK : Nat := 0

/-! ## C integer conversions -/

/-- Conversion of an `int` to `uint8_t`. -/
def toUInt8 (v : Nat) : Nat := v % 256

/-- Conversion of an `int` to `uint16_t`. -/
def toUInt16 (v : Int) : Nat := (v % 65536).toNat

/-- Conversion of an `int` to `int16_t` (two's complement wrap). -/
def toInt16 (v : Int) : Int := (v + 32768) % 65536 - 32768

/-- Conversion of an `int` to the 32-bit `size_t` of the target. -/
def toSizeT (v : Int) : Nat := (v % 4294967296).toNat

/-- The range of an `int16_t`. -/
def isInt16 (v : Int) : Prop := -32768 ≤ v ∧ v ≤ 32767

instance (v : Int) : Decidable (isInt16 v) := by unfold isInt16; infer_instance

/-! ## Bus events and the driver computation -/

/-- The fields of `spi_transaction_t` the driver sets: bit length, transmit
buffer, and the `user` word that the pre-transfer callback writes to the D/C
line (0 = command, 1 = data). -/
structure Transaction where
  length : Nat
  tx_buffer : List Nat
  user : Nat
deriving DecidableEq

/-- The bytes a transaction clocks out: the first `length / 8` bytes of its buffer. -/
def Transaction.bytes (t : Transaction) : List Nat := t.tx_buffer.take (t.length / 8)

/-- What the driver does to the outside world. -/
inductive Event where
  | transmit (t : Transaction)
  | gpio (pin : Nat) (level : Nat)
  | delay (ms : Nat)
deriving DecidableEq

/-- The transport: the `esp_err_t` returned by the k-th (0-based) blocking transfer. -/
abbrev Transport := Nat → Nat

/-- The transport on which every transfer succeeds. -/
def okTransport : Transport := fun _ => ESP_OK

/-- How a driver call ends: it returns, or an assertion aborts it. Both carry
the events issued so far. -/
inductive Outcome (α : Type) where
  | done (a : α) (trace : List Event)
  | aborted (trace : List Event)
deriving DecidableEq

def Outcome.trace {α : Type} : Outcome α → List Event
  | .done _ tr => tr
  | .aborted tr => tr

/-- A driver computation: given the transport and the events so far, an outcome. -/
def Drv (α : Type) : Type := Transport → List Event → Outcome α

def Drv.pure {α : Type} (a : α) : Drv α := fun _ tr => .done a tr

def Drv.bind {α β : Type} (m : Drv α) (f : α → Drv β) : Drv β := fun o tr =>
  match m o tr with
  | .done a tr1 => f a o tr1
  | .aborted tr1 => .aborted tr1

instance : Monad Drv where
  pure := Drv.pure
  bind := Drv.bind

/-- The transfers among a list of events. -/
def transfers : List Event → List Transaction
  | [] => []
  | .transmit t :: es => t :: transfers es
  | _ :: es => transfers es

/-- Number of transfers among a list of events. -/
def numTransfers (es : List Event) : Nat := (transfers es).length

/-- The blocking transfer `spi_device_polling_transmit`: the transfer is issued,
and the transport decides the returned error code. -/
def spi_device_polling_transmit (t : Transaction) : Drv Nat := fun o tr =>
  .done (o (numTransfers tr)) (tr ++ [.transmit t])

/-- The C `assert`: aborts when the condition is false. -/
def assert (b : Bool) : Drv Unit := fun _ tr =>
  if b then .done () tr else .aborted tr

def gpio_set_level (pin level : Nat) : Drv Unit := fun _ tr =>
  .done () (tr ++ [.gpio pin level])

/-- Modelled from the spec: the timing service `delay(milliseconds)`. It stands
for `vTaskDelay(pdMS_TO_TICKS(ms))`; the tick conversion macro and the tick rate
are platform declarations outside the repository. -/
def vTaskDelayMs (ms : Nat) : Drv Unit := fun _ tr =>
  .done () (tr ++ [.delay ms])

/-- The loop `for (int i = 0; i < n; i++) body(i)`, started at index `i` with
`n - i = count` iterations left. -/
def forFrom (body : Nat → Drv Unit) : Nat → Nat → Drv Unit
  | _, 0 => Drv.pure ()
  | i, count + 1 => Drv.bind (body i) (fun _ => forFrom body (i + 1) count)

/-- The loop `for (int i = 0; i < n; i++) body(i)`. -/
def forLoop (n : Nat) (body : Nat → Drv Unit) : Drv Unit := forFrom body 0 n

/-- Run a driver call on a fresh bus. -/
def Drv.run {α : Type} (m : Drv α) (o : Transport) : Outcome α := m o []

/-- The events of a driver call when no transfer faults. -/
def traceOf {α : Type} (m : Drv α) : List Event := (m.run okTransport).trace

/-! ## Low-level SPI functions (`main.c` lines 76-111) -/

def tft_cmd (cmd : Nat) : Drv Unit := do
  let t : Transaction := { length := 8, tx_buffer := [cmd], user := 0 }
  let ret ← spi_device_polling_transmit t
  assert (ret == ESP_OK)

def tft_data (data : Nat) : Drv Unit := do
  let t : Transaction := { length := 8, tx_buffer := [data], user := 1 }
  let ret ← spi_device_polling_transmit t
  assert (ret == ESP_OK)

def tft_data_buf (data : List Nat) (len : Int) : Drv Unit :=
  if len = 0 then pure () else do
    let t : Transaction := { length := toSizeT (len * 8), tx_buffer := data, user := 1 }
    let ret ← spi_device_polling_transmit t
    assert (ret == ESP_OK)

/-! ## Drawing functions (`main.c` lines 280-346) -/

def tft_set_addr_window (x0 y0 x1 y1 : Nat) : Drv Unit := do
  tft_cmd ILI9486_CASET
  tft_data (toUInt8 (x0 >>> 8))
  tft_data (toUInt8 (x0 &&& 0xFF))
  tft_data (toUInt8 (x1 >>> 8))
  tft_data (toUInt8 (x1 &&& 0xFF))
  tft_cmd ILI9486_PASET
  tft_data (toUInt8 (y0 >>> 8))
  tft_data (toUInt8 (y0 &&& 0xFF))
  tft_data (toUInt8 (y1 >>> 8))
  tft_data (toUInt8 (y1 &&& 0xFF))
  tft_cmd ILI9486_RAMWR

/-- The row-buffer loop shared in shape by both fill functions:
`for (int i = 0; i < n; i++) { line[i*2] = color >> 8; line[i*2+1] = color & 0xFF; }`
run on the buffer `line`. -/
def packLine (color : Nat) (n : Nat) (line : List Nat) : List Nat :=
  (List.range n).foldl
    (fun l i => (l.set (i * 2) (toUInt8 (color >>> 8))).set (i * 2 + 1) (toUInt8 (color &&& 0xFF)))
    line

def tft_fill_screen (color : Nat) : Drv Unit := do
  tft_set_addr_window 0 0 (toUInt16 (TFT_WIDTH - 1)) (toUInt16 (TFT_HEIGHT - 1))
  let line := packLine color TFT_WIDTH.toNat (List.replicate (TFT_WIDTH * 2).toNat 0)
  gpio_set_level TFT_DC 1
  forLoop TFT_HEIGHT.toNat (fun _ => tft_data_buf line (TFT_WIDTH * 2))

/-- Line 331: `if (x + w > TFT_WIDTH) w = TFT_WIDTH - x;` (the sum is an `int`,
the assignment converts back to `int16_t`). -/
def clipW (x w : Int) : Int := if x + w > TFT_WIDTH then toInt16 (TFT_WIDTH - x) else w

/-- Line 332: `if (y + h > TFT_HEIGHT) h = TFT_HEIGHT - y;`. -/
def clipH (y h : Int) : Int := if y + h > TFT_HEIGHT then toInt16 (TFT_HEIGHT - y) else h

def tft_fill_rect (x y w h : Int) (color : Nat) : Drv Unit :=
  if x ≥ TFT_WIDTH ∨ y ≥ TFT_HEIGHT ∨ w ≤ 0 ∨ h ≤ 0 then pure () else do
    let w := clipW x w
    let h := clipH y h
    tft_set_addr_window (toUInt16 x) (toUInt16 y) (toUInt16 (x + w - 1)) (toUInt16 (y + h - 1))
    let line := packLine color w.toNat (List.replicate (w * 2).toNat 0)
    gpio_set_level TFT_DC 1
    forLoop h.toNat (fun _ => tft_data_buf line (w * 2))

/-! ## Display initialization (`main.c` lines 169-276) -/

def tft_init_display : Drv Unit := do
  -- Software Reset
  tft_cmd ILI9486_SWRESET
  vTaskDelayMs 150
  -- Interface Mode Control
  tft_cmd 0xB0
  tft_data 0x00
  -- Sleep Out
  tft_cmd ILI9486_SLPOUT
  vTaskDelayMs 120
  -- Interface Pixel Format (16-bit RGB565)
  tft_cmd ILI9486_PIXFMT
  tft_data 0x55
  -- Power Control 1
  tft_cmd ILI9486_PWCTR1
  tft_data 0x19
  tft_data 0x1A
  -- Power Control 2
  tft_cmd ILI9486_PWCTR2
  tft_data 0x45
  tft_data 0x00
  -- Power Control 3
  tft_cmd ILI9486_PWCTR3
  tft_data 0x33
  -- VCOM Control
  tft_cmd ILI9486_VMCTR1
  tft_data 0x00
  tft_data 0x12
  tft_data 0x80
  -- Memory Access Control
  tft_cmd ILI9486_MADCTL
  tft_data 0x28
  -- Display Function Control
  tft_cmd ILI9486_DFUNCTR
  tft_data 0x00
  tft_data 0x02
  tft_data 0x3B
  -- Frame Rate Control
  tft_cmd ILI9486_FRMCTR1
  tft_data 0xB0
  tft_data 0x11
  -- Display Inversion Control
  tft_cmd ILI9486_INVCTR
  tft_data 0x02
  -- Positive Gamma Control
  tft_cmd ILI9486_GMCTRP1
  tft_data 0x0F
  tft_data 0x24
  tft_data 0x1C
  tft_data 0x0A
  tft_data 0x0F
  tft_data 0x08
  tft_data 0x43
  tft_data 0x88
  tft_data 0x32
  tft_data 0x0F
  tft_data 0x10
  tft_data 0x06
  tft_data 0x0F
  tft_data 0x07
  tft_data 0x00
  -- Negative Gamma Control
  tft_cmd ILI9486_GMCTRN1
  tft_data 0x0F
  tft_data 0x38
  tft_data 0x30
  tft_data 0x09
  tft_data 0x0F
  tft_data 0x0F
  tft_data 0x4E
  tft_data 0x77
  tft_data 0x3C
  tft_data 0x07
  tft_data 0x10
  tft_data 0x05
  tft_data 0x23
  tft_data 0x1B
  tft_data 0x00
  -- Sleep Out (again)
  tft_cmd ILI9486_SLPOUT
  vTaskDelayMs 120
  -- Display ON
  tft_cmd ILI9486_DISPON
  vTaskDelayMs 25
  -- Normal Display Mode ON
  tft_cmd ILI9486_NORON

/-! ## Observations on traces -/

/-- A one-byte transfer at command level (D/C = 0). -/
def cmdT (op : Nat) : Transaction := { length := 8, tx_buffer := [op], user := 0 }

/-- A one-byte transfer at data level (D/C = 1). -/
def dataT (b : Nat) : Transaction := { length := 8, tx_buffer := [b], user := 1 }

/-- The row transfer of the fill functions: `n` pixels of `color`, most
significant byte first, at data level. -/
def rowT (n : Nat) (color : Nat) : Transaction :=
  { length := n * 2 * 8
    tx_buffer := (List.replicate n [color >>> 8, color &&& 0xFF]).flatten
    user := 1 }

/-- Read a byte stream back as big-endian 16-bit pixels. -/
def pixels : List Nat → List Nat
  | hi :: lo :: rest => (hi * 256 + lo) :: pixels rest
  | _ => []

/-- The opcodes of a trace: the bytes of its command-level transfers, in order. -/
def opcodes (es : List Event) : List Nat :=
  ((transfers es).filter (fun t => t.user == 0)).flatMap Transaction.bytes

/-- Total delay at the head of a trace, before its first transfer. -/
def settle : List Event → Nat
  | [] => 0
  | .transmit _ :: _ => 0
  | .delay ms :: es => ms + settle es
  | .gpio _ _ :: es => settle es

/-- Data bytes at the head of a trace, before its first command-level transfer. -/
def payload : List Event → List Nat
  | [] => []
  | .transmit t :: es => if t.user = 0 then [] else t.bytes ++ payload es
  | _ :: es => payload es

/-- Is the event the command transfer of opcode `op`? -/
def isCmd (op : Nat) (e : Event) : Bool := e == .transmit (cmdT op)

/-- For each occurrence of command `op`: the delay between it and the next transfer. -/
def delaysAfter (op : Nat) : List Event → List Nat
  | [] => []
  | e :: es => if isCmd op e then settle es :: delaysAfter op es else delaysAfter op es

/-- For each occurrence of command `op`: the data bytes sent before the next command. -/
def payloadsAfter (op : Nat) : List Event → List (List Nat)
  | [] => []
  | e :: es => if isCmd op e then payload es :: payloadsAfter op es else payloadsAfter op es

/-- Sum of all delays of a trace. -/
def totalDelay : List Event → Nat
  | [] => 0
  | .delay ms :: es => ms + totalDelay es
  | _ :: es => totalDelay es

/-- An addressing window as the controller receives it. -/
structure Window where
  x0 : Nat
  y0 : Nat
  x1 : Nat
  y1 : Nat
deriving DecidableEq

/-- The byte of a one-byte data-level transfer. -/
def dataByte (t : Transaction) : Option Nat :=
  if t.user = 1 ∧ t.length = 8 then t.tx_buffer.head? else none

/-- Decode a window program at the head of a list of transfers: CASET and four
data bytes, PASET and four data bytes, RAMWR. -/
def windowAt : List Transaction → Option Window
  | c0 :: a :: b :: c :: d :: c1 :: e :: f :: g :: h :: c2 :: _ =>
    if c0 = cmdT ILI9486_CASET ∧ c1 = cmdT ILI9486_PASET ∧ c2 = cmdT ILI9486_RAMWR then do
      let a ← dataByte a
      let b ← dataByte b
      let c ← dataByte c
      let d ← dataByte d
      let e ← dataByte e
      let f ← dataByte f
      let g ← dataByte g
      let h ← dataByte h
      pure { x0 := a * 256 + b, y0 := e * 256 + f, x1 := c * 256 + d, y1 := g * 256 + h }
    else none
  | _ => none

/-- Every addressing window programmed in a list of transfers, in order. -/
def windows : List Transaction → List Window
  | [] => []
  | t :: ts =>
    match windowAt (t :: ts) with
    | some w => w :: windows ts
    | none => windows ts

/-- The addressing-window invariant of the data model. -/
def Window.valid (w : Window) : Prop :=
  w.x0 ≤ w.x1 ∧ (w.x1 : Int) < TFT_WIDTH ∧ w.y0 ≤ w.y1 ∧ (w.y1 : Int) < TFT_HEIGHT

instance (w : Window) : Decidable w.valid := by unfold Window.valid; infer_instance

/-- The driver operations, as calls with their arguments. -/
inductive Op where
  | cmd (c : Nat)
  | data (d : Nat)
  | data_buf (buf : List Nat) (len : Int)
  | set_addr_window (x0 y0 x1 y1 : Nat)
  | fill_rect (x y w h : Int) (color : Nat)
  | fill_screen (color : Nat)
  | init_display

/-- The driver function an operation calls. -/
def Op.call : Op → Drv Unit
  | .cmd c => tft_cmd c
  | .data d => tft_data d
  | .data_buf buf len => tft_data_buf buf len
  | .set_addr_window x0 y0 x1 y1 => tft_set_addr_window x0 y0 x1 y1
  | .fill_rect x y w h color => tft_fill_rect x y w h color
  | .fill_screen color => tft_fill_screen color
  | .init_display => tft_init_display

/-- Issue a fixed list of events in order, with the assertion of `tft_cmd` /
`tft_data` / `tft_data_buf` after each transfer. Used to reason about the
driver functions, which are all of this shape. -/
def play : List Event → Drv Unit
  | [] => Drv.pure ()
  | .transmit t :: es =>
    Drv.bind (spi_device_polling_transmit t) (fun ret =>
      Drv.bind (assert (ret == ESP_OK)) (fun _ => play es))
  | .gpio pin level :: es => Drv.bind (gpio_set_level pin level) (fun _ => play es)
  | .delay ms :: es => Drv.bind (vTaskDelayMs ms) (fun _ => play es)

/-- The window program: the events `tft_set_addr_window` is expected to issue. -/
def windowScript (x0 y0 x1 y1 : Nat) : List Event :=
  [.transmit (cmdT ILI9486_CASET),
   .transmit (dataT (toUInt8 (x0 >>> 8))), .transmit (dataT (toUInt8 (x0 &&& 0xFF))),
   .transmit (dataT (toUInt8 (x1 >>> 8))), .transmit (dataT (toUInt8 (x1 &&& 0xFF))),
   .transmit (cmdT ILI9486_PASET),
   .transmit (dataT (toUInt8 (y0 >>> 8))), .transmit (dataT (toUInt8 (y0 &&& 0xFF))),
   .transmit (dataT (toUInt8 (y1 >>> 8))), .transmit (dataT (toUInt8 (y1 &&& 0xFF))),
   .transmit (cmdT ILI9486_RAMWR)]

/-- A command with its payload bytes and the delay after it. -/
def reg (op : Nat) (bytes : List Nat) (ms : Nat) : List Event :=
  .transmit (cmdT op) :: bytes.map (fun b => .transmit (dataT b)) ++
    (if ms = 0 then [] else [.delay ms])

/-- The bring-up script as a table of (opcode, payload, post-delay) records. -/
def initScript : List Event :=
  reg 0x01 [] 150 ++
  reg 0xB0 [0x00] 0 ++
  reg 0x11 [] 120 ++
  reg 0x3A [0x55] 0 ++
  reg 0xC0 [0x19, 0x1A] 0 ++
  reg 0xC1 [0x45, 0x00] 0 ++
  reg 0xC2 [0x33] 0 ++
  reg 0xC5 [0x00, 0x12, 0x80] 0 ++
  reg 0x36 [0x28] 0 ++
  reg 0xB6 [0x00, 0x02, 0x3B] 0 ++
  reg 0xB1 [0xB0, 0x11] 0 ++
  reg 0xB4 [0x02] 0 ++
  reg 0xE0 [0x0F, 0x24, 0x1C, 0x0A, 0x0F, 0x08, 0x43, 0x88, 0x32, 0x0F, 0x10, 0x06, 0x0F, 0x07, 0x00] 0 ++
  reg 0xE1 [0x0F, 0x38, 0x30, 0x09, 0x0F, 0x0F, 0x4E, 0x77, 0x3C, 0x07, 0x10, 0x05, 0x23, 0x1B, 0x00] 0 ++
  reg 0x11 [] 120 ++
  reg 0x29 [] 25 ++
  reg 0x13 [] 0

/-! ## The driver computation: algebra -/

theorem bind_def {α β : Type} (m : Drv α) (f : α → Drv β) : (m >>= f) = Drv.bind m f := rfl

theorem Drv.bind_assoc {α β γ : Type} (m : Drv α) (f : α → Drv β) (g : β → Drv γ) :
    Drv.bind (Drv.bind m f) g = Drv.bind m (fun a => Drv.bind (f a) g) := by
  funext o tr
  simp only [Drv.bind]
  cases m o tr <;> rfl

theorem Drv.bind_pure_unit (m : Drv Unit) : Drv.bind m (fun _ => Drv.pure ()) = m := by
  funext o tr
  simp only [Drv.bind, Drv.pure]
  cases m o tr <;> rfl

theorem play_append (a b : List Event) :
    Drv.bind (play a) (fun _ => play b) = play (a ++ b) := by
  induction a with
  | nil => rfl
  | cons e es ih =>
    cases e with
    | transmit t =>
      simp only [play, List.cons_append, Drv.bind_assoc, ih, List.append_eq]
    | gpio pin level =>
      simp only [play, List.cons_append, Drv.bind_assoc, ih, List.append_eq]
    | delay ms =>
      simp only [play, List.cons_append, Drv.bind_assoc, ih, List.append_eq]

theorem tft_cmd_eq (c : Nat) : tft_cmd c = play [.transmit (cmdT c)] := by
  simp only [tft_cmd, play, bind_def, Drv.bind_pure_unit, cmdT]

theorem tft_data_eq (d : Nat) : tft_data d = play [.transmit (dataT d)] := by
  simp only [tft_data, play, bind_def, Drv.bind_pure_unit, dataT]

theorem tft_data_buf_eq (data : List Nat) (len : Int) :
    tft_data_buf data len =
      play (if len = 0 then []
            else [.transmit { length := toSizeT (len * 8), tx_buffer := data, user := 1 }]) := by
  unfold tft_data_buf
  split
  · rfl
  · simp only [play, bind_def, Drv.bind_pure_unit]

theorem gpio_set_level_eq (pin level : Nat) : gpio_set_level pin level = play [.gpio pin level] := by
  simp only [play, Drv.bind_pure_unit]

theorem vTaskDelayMs_eq (ms : Nat) : vTaskDelayMs ms = play [.delay ms] := by
  simp only [play, Drv.bind_pure_unit]

theorem forFrom_play (l : List Event) (i n : Nat) :
    forFrom (fun _ => play l) i n = play (List.replicate n l).flatten := by
  induction n generalizing i with
  | zero => rfl
  | succ k ih =>
    simp only [forFrom, ih, play_append, List.replicate_succ, List.flatten_cons]

/-! ## What a played script does on the bus -/

theorem transfers_append (a b : List Event) : transfers (a ++ b) = transfers a ++ transfers b := by
  induction a with
  | nil => rfl
  | cons e es ih => cases e <;> simp [transfers, ih]

theorem numTransfers_append (a b : List Event) :
    numTransfers (a ++ b) = numTransfers a + numTransfers b := by
  simp [numTransfers, transfers_append]

theorem transfers_replicate_transmit (n : Nat) (t : Transaction) :
    transfers (List.replicate n [Event.transmit t]).flatten = List.replicate n t := by
  induction n with
  | zero => rfl
  | succ k ih =>
    simp only [List.replicate_succ, List.flatten_cons, List.cons_append, List.nil_append,
      transfers, List.append_eq, ih]

/-- When no transfer of the script faults, the whole script is issued. -/
theorem play_ok (es : List Event) (o : Transport) (tr : List Event)
    (h : ∀ j, j < numTransfers es → o (numTransfers tr + j) = ESP_OK) :
    play es o tr = .done () (tr ++ es) := by
  induction es generalizing tr with
  | nil => simp [play, Drv.pure]
  | cons e es ih =>
    cases e with
    | transmit t =>
      have h0 : o (numTransfers tr) = ESP_OK := by
        have := h 0 (by simp [numTransfers, transfers])
        simpa using this
      have hrest : ∀ j, j < numTransfers es →
          o (numTransfers (tr ++ [Event.transmit t]) + j) = ESP_OK := by
        intro j hj
        have := h (j + 1) (by simp [numTransfers, transfers] at hj ⊢; omega)
        rw [numTransfers_append]
        simp only [numTransfers, transfers, List.length_cons, List.length_nil] at this ⊢
        rw [← this]; congr 1; omega
      simp only [play, Drv.bind, spi_device_polling_transmit, assert, h0, beq_self_eq_true,
        if_true]
      rw [ih _ hrest]; simp
    | gpio pin level =>
      have hrest : ∀ j, j < numTransfers es →
          o (numTransfers (tr ++ [Event.gpio pin level]) + j) = ESP_OK := by
        intro j hj
        have := h j (by simpa [numTransfers, transfers] using hj)
        simpa [numTransfers, transfers_append, transfers] using this
      simp only [play, Drv.bind, gpio_set_level]
      rw [ih _ hrest]; simp
    | delay ms =>
      have hrest : ∀ j, j < numTransfers es →
          o (numTransfers (tr ++ [Event.delay ms]) + j) = ESP_OK := by
        intro j hj
        have := h j (by simpa [numTransfers, transfers] using hj)
        simpa [numTransfers, transfers_append, transfers] using this
      simp only [play, Drv.bind, vTaskDelayMs]
      rw [ih _ hrest]; simp

/-- When the k-th transfer of the script is the first to fault, the script is
issued up to and including that transfer and then aborted. -/
theorem play_fault (es : List Event) (o : Transport) (tr : List Event) (k : Nat)
    (hk : k < numTransfers es)
    (hok : ∀ j, j < k → o (numTransfers tr + j) = ESP_OK)
    (hf : o (numTransfers tr + k) ≠ ESP_OK) :
    ∃ pre t post, es = pre ++ Event.transmit t :: post ∧ numTransfers pre = k ∧
      play es o tr = .aborted (tr ++ pre ++ [Event.transmit t]) := by
  induction es generalizing tr k with
  | nil => simp [numTransfers, transfers] at hk
  | cons e es ih =>
    cases e with
    | transmit t =>
      cases k with
      | zero =>
        refine ⟨[], t, es, rfl, rfl, ?_⟩
        have hf0 : ¬ o (numTransfers tr) = ESP_OK := by simpa using hf
        simp [play, Drv.bind, spi_device_polling_transmit, assert, hf0]
      | succ k =>
        have h0 : o (numTransfers tr) = ESP_OK := by simpa using hok 0 (by omega)
        have hn : numTransfers (tr ++ [Event.transmit t]) = numTransfers tr + 1 := by
          simp [numTransfers, transfers_append, transfers]
        obtain ⟨pre, t1, post, hes, hpre, hrun⟩ := ih (tr ++ [Event.transmit t]) k
          (by simp [numTransfers, transfers] at hk ⊢; omega)
          (by intro j hj
              have := hok (j + 1) (by omega)
              rw [hn, ← this]; congr 1; omega)
          (by rw [hn]; intro hc; apply hf; rw [← hc]; congr 1; omega)
        refine ⟨Event.transmit t :: pre, t1, post, by simp [hes], ?_, ?_⟩
        · simp [numTransfers, transfers] at hpre ⊢; exact hpre
        · simp only [play, Drv.bind, spi_device_polling_transmit, assert, h0, beq_self_eq_true,
            if_true]
          rw [hrun]; simp
    | gpio pin level =>
      have hn : numTransfers (tr ++ [Event.gpio pin level]) = numTransfers tr := by
        simp [numTransfers, transfers_append, transfers]
      obtain ⟨pre, t1, post, hes, hpre, hrun⟩ := ih (tr ++ [Event.gpio pin level]) k
        (by simpa [numTransfers, transfers] using hk)
        (by intro j hj; rw [hn]; exact hok j hj)
        (by rw [hn]; exact hf)
      refine ⟨Event.gpio pin level :: pre, t1, post, by simp [hes], ?_, ?_⟩
      · simpa [numTransfers, transfers] using hpre
      · simp only [play, Drv.bind, gpio_set_level]
        rw [hrun]; simp
    | delay ms =>
      have hn : numTransfers (tr ++ [Event.delay ms]) = numTransfers tr := by
        simp [numTransfers, transfers_append, transfers]
      obtain ⟨pre, t1, post, hes, hpre, hrun⟩ := ih (tr ++ [Event.delay ms]) k
        (by simpa [numTransfers, transfers] using hk)
        (by intro j hj; rw [hn]; exact hok j hj)
        (by rw [hn]; exact hf)
      refine ⟨Event.delay ms :: pre, t1, post, by simp [hes], ?_, ?_⟩
      · simpa [numTransfers, transfers] using hpre
      · simp only [play, Drv.bind, vTaskDelayMs]
        rw [hrun]; simp

theorem traceOf_play (es : List Event) : traceOf (play es) = es := by
  have := play_ok es okTransport [] (fun _ _ => rfl)
  simp [traceOf, Drv.run, this, Outcome.trace]

/-! ## Byte packing -/

theorem toUInt8_shift (c : Nat) (h : c < 65536) : toUInt8 (c >>> 8) = c >>> 8 := by
  unfold toUInt8
  rw [Nat.shiftRight_eq_div_pow]
  omega

theorem and_ff (c : Nat) : c &&& 0xFF = c % 256 := Nat.and_pow_two_sub_one_eq_mod c 8

theorem toUInt8_and (c : Nat) : toUInt8 (c &&& 0xFF) = c &&& 0xFF := by
  unfold toUInt8
  rw [and_ff]
  omega

theorem hi_lo (c : Nat) : (c >>> 8) * 256 + (c &&& 0xFF) = c := by
  rw [and_ff, Nat.shiftRight_eq_div_pow]
  omega

theorem flatten_replicate_snoc {α : Type} (k : Nat) (l : List α) :
    (List.replicate (k + 1) l).flatten = (List.replicate k l).flatten ++ l := by
  induction k with
  | zero => simp
  | succ k ih =>
    calc (List.replicate (k + 1 + 1) l).flatten
        = l ++ (List.replicate (k + 1) l).flatten := by
          rw [List.replicate_succ, List.flatten_cons]
      _ = l ++ ((List.replicate k l).flatten ++ l) := by rw [ih]
      _ = (l ++ (List.replicate k l).flatten) ++ l := by rw [List.append_assoc]
      _ = (List.replicate (k + 1) l).flatten ++ l := by
          rw [List.replicate_succ, List.flatten_cons]

theorem length_flatten_replicate_pair {α : Type} (k : Nat) (a b : α) :
    (List.replicate k [a, b]).flatten.length = k * 2 := by
  induction k with
  | zero => rfl
  | succ k ih => simp [List.replicate_succ, ih]; omega

/-- After `k` rounds the row-buffer loop has written `k` pixels and left the rest untouched. -/
theorem packLine_rounds (c n k : Nat) (hk : k ≤ n) :
    packLine c k (List.replicate (n * 2) 0) =
      (List.replicate k [toUInt8 (c >>> 8), toUInt8 (c &&& 0xFF)]).flatten ++
        List.replicate ((n - k) * 2) 0 := by
  induction k with
  | zero => simp [packLine]
  | succ k ih =>
    have ih1 := ih (by omega)
    unfold packLine at ih1 ⊢
    rw [List.range_succ, List.foldl_append, ih1]
    have hlen := length_flatten_replicate_pair k (toUInt8 (c >>> 8)) (toUInt8 (c &&& 0xFF))
    have hrest : (n - k) * 2 = (n - (k + 1)) * 2 + 1 + 1 := by omega
    simp only [List.foldl_cons, List.foldl_nil]
    rw [List.set_append_right _ _ (by omega), hlen, Nat.sub_self, hrest, List.replicate_succ,
      List.replicate_succ, List.set_cons_zero, List.set_append_right _ _ (by omega), hlen]
    have h1 : k * 2 + 1 - k * 2 = 1 := by omega
    rw [h1, List.set_cons_succ, List.set_cons_zero, flatten_replicate_snoc, List.append_assoc]
    rfl

/-- The row-buffer loop fills the whole row with the big-endian colour. -/
theorem packLine_full (c n : Nat) :
    packLine c n (List.replicate (n * 2) 0) =
      (List.replicate n [toUInt8 (c >>> 8), toUInt8 (c &&& 0xFF)]).flatten := by
  rw [packLine_rounds c n n (le_refl n)]
  simp

theorem pixels_flatten_replicate (n hi lo : Nat) :
    pixels (List.replicate n [hi, lo]).flatten = List.replicate n (hi * 256 + lo) := by
  induction n with
  | zero => rfl
  | succ k ih => simp [List.replicate_succ, pixels, ih]

theorem flatten_replicate_mul {α : Type} (a b : Nat) (l : List α) :
    (List.replicate a (List.replicate b l).flatten).flatten = (List.replicate (a * b) l).flatten := by
  induction a with
  | zero => simp
  | succ k ih =>
    rw [List.replicate_succ, List.flatten_cons, ih, Nat.succ_mul, Nat.add_comm,
      List.replicate_add, List.flatten_append]

/-! ## The driver functions as scripts -/

theorem tft_set_addr_window_eq (x0 y0 x1 y1 : Nat) :
    tft_set_addr_window x0 y0 x1 y1 = play (windowScript x0 y0 x1 y1) := by
  simp only [tft_set_addr_window, bind_def, tft_cmd_eq, tft_data_eq, play_append,
    List.cons_append, List.nil_append, windowScript]

theorem tft_fill_screen_eq (c : Nat) :
    tft_fill_screen c = play (windowScript 0 0 479 319 ++ [Event.gpio TFT_DC 1] ++
      (List.replicate 320 [Event.transmit
        { length := 7680
          tx_buffer := (List.replicate 480 [toUInt8 (c >>> 8), toUInt8 (c &&& 0xFF)]).flatten
          user := 1 }]).flatten) := by
  have hline := packLine_full c 480
  simp only [tft_fill_screen, bind_def, tft_set_addr_window_eq, gpio_set_level_eq, forLoop,
    tft_data_buf_eq, forFrom_play, play_append]
  rw [show (TFT_WIDTH * 2).toNat = 480 * 2 from rfl, show TFT_WIDTH.toNat = 480 from rfl, hline]
  rfl

theorem tft_fill_rect_eq (x y w h : Int) (c : Nat) :
    tft_fill_rect x y w h c = play
      (if x ≥ TFT_WIDTH ∨ y ≥ TFT_HEIGHT ∨ w ≤ 0 ∨ h ≤ 0 then []
       else
        windowScript (toUInt16 x) (toUInt16 y) (toUInt16 (x + clipW x w - 1))
            (toUInt16 (y + clipH y h - 1)) ++
          ([Event.gpio TFT_DC 1] ++
            (List.replicate (clipH y h).toNat
              (if clipW x w * 2 = 0 then []
               else
                [Event.transmit
                  { length := toSizeT (clipW x w * 2 * 8)
                    tx_buffer := packLine c (clipW x w).toNat
                      (List.replicate (clipW x w * 2).toNat 0)
                    user := 1 }])).flatten)) := by
  unfold tft_fill_rect
  split
  · rfl
  · simp only [bind_def, tft_set_addr_window_eq, gpio_set_level_eq, forLoop,
      tft_data_buf_eq, forFrom_play, play_append]

theorem tft_init_display_eq : tft_init_display = play initScript := by
  simp only [tft_init_display, bind_def, tft_cmd_eq, tft_data_eq, vTaskDelayMs_eq, play_append,
    List.cons_append, List.nil_append]
  rfl

theorem Op.call_scripted (op : Op) : ∃ es, op.call = play es := by
  cases op with
  | cmd c => exact ⟨_, tft_cmd_eq c⟩
  | data d => exact ⟨_, tft_data_eq d⟩
  | data_buf buf len => exact ⟨_, tft_data_buf_eq buf len⟩
  | set_addr_window x0 y0 x1 y1 => exact ⟨_, tft_set_addr_window_eq x0 y0 x1 y1⟩
  | fill_rect x y w h color => exact ⟨_, tft_fill_rect_eq x y w h color⟩
  | fill_screen color => exact ⟨_, tft_fill_screen_eq color⟩
  | init_display => exact ⟨_, tft_init_display_eq⟩

/-! ## Addressing window and raster writer -/

/-- C1: for 16-bit bounds, `tft_set_addr_window` issues exactly CASET, the four
column bytes (x0 high, x0 low, x1 high, x1 low), PASET, the four row bytes, and
RAMWR with no payload; opcodes go out at command level, address bytes at data
level, and nothing else is issued. -/
theorem set_addr_window_trace (x0 y0 x1 y1 : Nat)
    (hx0 : x0 < 65536) (hy0 : y0 < 65536) (hx1 : x1 < 65536) (hy1 : y1 < 65536) :
    traceOf (tft_set_addr_window x0 y0 x1 y1) =
      [Event.transmit { length := 8, tx_buffer := [0x2A], user := 0 },
       Event.transmit { length := 8, tx_buffer := [x0 >>> 8], user := 1 },
       Event.transmit { length := 8, tx_buffer := [x0 &&& 0xFF], user := 1 },
       Event.transmit { length := 8, tx_buffer := [x1 >>> 8], user := 1 },
       Event.transmit { length := 8, tx_buffer := [x1 &&& 0xFF], user := 1 },
       Event.transmit { length := 8, tx_buffer := [0x2B], user := 0 },
       Event.transmit { length := 8, tx_buffer := [y0 >>> 8], user := 1 },
       Event.transmit { length := 8, tx_buffer := [y0 &&& 0xFF], user := 1 },
       Event.transmit { length := 8, tx_buffer := [y1 >>> 8], user := 1 },
       Event.transmit { length := 8, tx_buffer := [y1 &&& 0xFF], user := 1 },
       Event.transmit { length := 8, tx_buffer := [0x2C], user := 0 }] := by
  rw [tft_set_addr_window_eq, traceOf_play]
  simp only [windowScript, toUInt8_shift _ hx0, toUInt8_shift _ hy0, toUInt8_shift _ hx1,
    toUInt8_shift _ hy1, toUInt8_and]
  rfl

theorem set_addr_window_trace_witness :
    traceOf (tft_set_addr_window 450 50 479 149) =
      [Event.transmit { length := 8, tx_buffer := [0x2A], user := 0 },
       Event.transmit { length := 8, tx_buffer := [450 >>> 8], user := 1 },
       Event.transmit { length := 8, tx_buffer := [450 &&& 0xFF], user := 1 },
       Event.transmit { length := 8, tx_buffer := [479 >>> 8], user := 1 },
       Event.transmit { length := 8, tx_buffer := [479 &&& 0xFF], user := 1 },
       Event.transmit { length := 8, tx_buffer := [0x2B], user := 0 },
       Event.transmit { length := 8, tx_buffer := [50 >>> 8], user := 1 },
       Event.transmit { length := 8, tx_buffer := [50 &&& 0xFF], user := 1 },
       Event.transmit { length := 8, tx_buffer := [149 >>> 8], user := 1 },
       Event.transmit { length := 8, tx_buffer := [149 &&& 0xFF], user := 1 },
       Event.transmit { length := 8, tx_buffer := [0x2C], user := 0 }] :=
  set_addr_window_trace 450 50 479 149 (by decide) (by decide) (by decide) (by decide)

theorem toUInt16_toNat (v : Int) (h0 : 0 ≤ v) (h1 : v < 65536) : toUInt16 v = v.toNat := by
  unfold toUInt16
  congr 1
  omega

theorem clipW_eq_min (x w : Int) (hx : -32287 ≤ x) (hx1 : x < 480) :
    clipW x w = min w (480 - x) := by
  unfold clipW TFT_WIDTH toInt16
  split <;> omega

theorem clipH_eq_min (y h : Int) (hy : -32447 ≤ y) (hy1 : y < 320) :
    clipH y h = min h (320 - y) := by
  unfold clipH TFT_HEIGHT toInt16
  split <;> omega

/-- The transfers of a fill: a window program, then `m` identical row writes. -/
theorem fill_transfers (a b p q : Nat) (W H : Int) (n m c : Nat)
    (hW : W = (n : Int)) (hH : H = (m : Int)) (hn : 0 < n) (hn1 : n ≤ 65536) (hc : c < 65536) :
    transfers
      (windowScript a b p q ++
        ([Event.gpio TFT_DC 1] ++
          (List.replicate H.toNat
            (if W * 2 = 0 then []
             else
              [Event.transmit
                { length := toSizeT (W * 2 * 8)
                  tx_buffer := packLine c W.toNat (List.replicate (W * 2).toNat 0)
                  user := 1 }])).flatten)) =
      transfers (windowScript a b p q) ++ List.replicate m (rowT n c) := by
  subst hW hH
  have h1 : ¬ ((n : Int) * 2 = 0) := by omega
  have h2 : toSizeT ((n : Int) * 2 * 8) = n * 2 * 8 := by
    unfold toSizeT
    omega
  have h3 : ((n : Int) * 2).toNat = n * 2 := by omega
  rw [transfers_append, transfers_append, if_neg h1, h2, h3, Int.toNat_ofNat, Int.toNat_ofNat,
    packLine_full, transfers_replicate_transmit, toUInt8_shift c hc, toUInt8_and]
  rfl

/-- The transfers of an in-panel fill: the window program of the clipped
rectangle, then one row write per clipped row. -/
theorem fill_rect_transfers_eq (x y w h : Int) (c : Nat)
    (hx0 : 0 ≤ x) (hx1 : x < 480) (hy0 : 0 ≤ y) (hy1 : y < 320)
    (hw : 0 < w) (hh : 0 < h) (hc : c < 65536) :
    transfers (traceOf (tft_fill_rect x y w h c)) =
      transfers (traceOf (tft_set_addr_window x.toNat y.toNat
        (x + min w (480 - x) - 1).toNat (y + min h (320 - y) - 1).toNat)) ++
      List.replicate (min h (320 - y)).toNat (rowT (min w (480 - x)).toNat c) := by
  have hg : ¬ (x ≥ TFT_WIDTH ∨ y ≥ TFT_HEIGHT ∨ w ≤ 0 ∨ h ≤ 0) := by
    unfold TFT_WIDTH TFT_HEIGHT
    omega
  have hW := clipW_eq_min x w (by omega) hx1
  have hH := clipH_eq_min y h (by omega) hy1
  have hWpos : 0 < min w (480 - x) := by omega
  have hHpos : 0 < min h (320 - y) := by omega
  have hWle : min w (480 - x) ≤ 480 := by omega
  rw [tft_fill_rect_eq, traceOf_play, if_neg hg, hW, hH, tft_set_addr_window_eq, traceOf_play,
    toUInt16_toNat x hx0 (by omega), toUInt16_toNat y hy0 (by omega),
    toUInt16_toNat (x + min w (480 - x) - 1) (by omega) (by omega),
    toUInt16_toNat (y + min h (320 - y) - 1) (by omega) (by omega)]
  exact fill_transfers _ _ _ _ _ _ (min w (480 - x)).toNat (min h (320 - y)).toNat c
    (by omega) (by omega) (by omega) (by omega) hc

/-- C2: for an origin inside the panel and positive size, with
`w' = min(w, 480 - x)` and `h' = min(h, 320 - y)`, the transfers of
`tft_fill_rect` are exactly the window program for `(x, y, x+w'-1, y+h'-1)`
followed by `h'` data-level transfers of `2*w'` bytes alternating the high and
low byte of the colour. -/
theorem fill_rect_transfers (x y w h : Int) (c : Nat)
    (hx0 : 0 ≤ x) (hx1 : x < 480) (hy0 : 0 ≤ y) (hy1 : y < 320)
    (hw : 0 < w) (hh : 0 < h) (hc : c < 65536) :
    transfers (traceOf (tft_fill_rect x y w h c)) =
      transfers (traceOf (tft_set_addr_window x.toNat y.toNat
        (x + min w (480 - x) - 1).toNat (y + min h (320 - y) - 1).toNat)) ++
      List.replicate (min h (320 - y)).toNat
        { length := (min w (480 - x)).toNat * 2 * 8
          tx_buffer := (List.replicate (min w (480 - x)).toNat [c >>> 8, c &&& 0xFF]).flatten
          user := 1 } :=
  fill_rect_transfers_eq x y w h c hx0 hx1 hy0 hy1 hw hh hc

theorem fill_rect_transfers_witness :
    transfers (traceOf (tft_fill_rect 50 50 100 100 0xF800)) =
        transfers (traceOf (tft_set_addr_window 50 50 149 149)) ++
        List.replicate 100
          { length := 200 * 8
            tx_buffer := (List.replicate 100 [0xF8, 0x00]).flatten
            user := 1 } ∧
    transfers (traceOf (tft_fill_rect 450 50 100 100 0x07E0)) =
        transfers (traceOf (tft_set_addr_window 450 50 479 149)) ++
        List.replicate 100
          { length := 30 * 2 * 8
            tx_buffer := (List.replicate 30 [0x07, 0xE0]).flatten
            user := 1 } :=
  ⟨fill_rect_transfers 50 50 100 100 0xF800 (by decide) (by decide) (by decide) (by decide)
      (by decide) (by decide) (by decide),
   fill_rect_transfers 450 50 100 100 0x07E0 (by decide) (by decide) (by decide) (by decide)
      (by decide) (by decide) (by decide)⟩

theorem flatMap_replicate {α β : Type} (n : Nat) (a : α) (f : α → List β) :
    (List.replicate n a).flatMap f = (List.replicate n (f a)).flatten := by
  induction n with
  | zero => rfl
  | succ k ih => simp only [List.replicate_succ, List.flatMap_cons, List.flatten_cons, ih]

theorem rowT_bytes (n c : Nat) :
    (rowT n c).bytes = (List.replicate n [c >>> 8, c &&& 0xFF]).flatten := by
  unfold Transaction.bytes rowT
  simp only
  rw [Nat.mul_div_cancel _ (by decide : 0 < 8)]
  apply List.take_of_length_le
  rw [length_flatten_replicate_pair]

/-- C3: for a 16-bit colour `c`, `tft_fill_screen c` issues the window program
for (0,0,479,319) followed only by data-level transfers; their concatenated
bytes are `c >> 8, c & 0xFF` repeated, and read back as big-endian pairs they
are exactly 480*320 = 153600 pixels equal to `c`. -/
theorem fill_screen_pixels (c : Nat) (hc : c < 65536) :
    ∃ rows : List Transaction,
      transfers (traceOf (tft_fill_screen c)) =
        transfers (traceOf (tft_set_addr_window 0 0 479 319)) ++ rows ∧
      (∀ t ∈ rows, t.user = 1) ∧
      rows.flatMap Transaction.bytes =
        (List.replicate (480 * 320) [c >>> 8, c &&& 0xFF]).flatten ∧
      pixels (rows.flatMap Transaction.bytes) = List.replicate (480 * 320) c := by
  have hb : (List.replicate 320 (rowT 480 c)).flatMap Transaction.bytes =
      (List.replicate (480 * 320) [c >>> 8, c &&& 0xFF]).flatten := by
    rw [flatMap_replicate, rowT_bytes, flatten_replicate_mul]
  refine ⟨List.replicate 320 (rowT 480 c), ?_, ?_, hb, ?_⟩
  · rw [tft_fill_screen_eq, traceOf_play, tft_set_addr_window_eq, traceOf_play, transfers_append,
      transfers_append, transfers_replicate_transmit, toUInt8_shift c hc, toUInt8_and]
    rfl
  · intro t ht
    rw [List.eq_of_mem_replicate ht]
    rfl
  · rw [hb, pixels_flatten_replicate, hi_lo]

theorem fill_screen_pixels_witness :
    ∃ rows : List Transaction,
      transfers (traceOf (tft_fill_screen TFT_RED)) =
        transfers (traceOf (tft_set_addr_window 0 0 479 319)) ++ rows ∧
      (∀ t ∈ rows, t.user = 1) ∧
      rows.flatMap Transaction.bytes =
        (List.replicate (480 * 320) [TFT_RED >>> 8, TFT_RED &&& 0xFF]).flatten ∧
      pixels (rows.flatMap Transaction.bytes) = List.replicate (480 * 320) TFT_RED :=
  fill_screen_pixels TFT_RED (by decide)

/-- C4: `tft_fill_screen c` and `tft_fill_rect 0 0 480 320 c` are the same
computation: on every transport they issue the same events in the same order
and end the same way. -/
theorem fill_screen_eq_fill_rect (c : Nat) (o : Transport) :
    (tft_fill_screen c).run o = (tft_fill_rect 0 0 480 320 c).run o := by
  have hg : ¬ ((0 : Int) ≥ TFT_WIDTH ∨ (0 : Int) ≥ TFT_HEIGHT ∨ (480 : Int) ≤ 0 ∨ (320 : Int) ≤ 0) := by
    decide
  have hW : clipW 0 480 = TFT_WIDTH := by decide
  have hH : clipH 0 320 = TFT_HEIGHT := by decide
  unfold tft_fill_rect tft_fill_screen
  rw [if_neg hg]
  simp only [hW, hH]
  rfl

/-- C5: evaluation at the negative origin x = -5. The guard of `tft_fill_rect`
tests only `x >= TFT_WIDTH` and `y >= TFT_HEIGHT`, so the call is not a no-op:
it programs the window (65531, 0, 4, 9) and writes 10 rows of 10 pixels. -/
theorem fill_rect_negative_origin_emits :
    transfers (traceOf (tft_fill_rect (-5) 0 10 10 TFT_RED)) =
      transfers (traceOf (tft_set_addr_window 65531 0 4 9)) ++
        List.replicate 10 (rowT 10 TFT_RED) := by
  decide

/-- C6: evaluation at the negative origin x = -5. The one window programmed
is (65531, 0, 4, 9), which breaks `x0 <= x1 < 480`. -/
theorem fill_rect_negative_origin_window :
    windows (transfers (traceOf (tft_fill_rect (-5) 0 10 10 TFT_RED))) =
        [{ x0 := 65531, y0 := 0, x1 := 4, y1 := 9 }] ∧
      ¬ Window.valid { x0 := 65531, y0 := 0, x1 := 4, y1 := 9 } := by
  decide

/-- C7: over signed 16-bit arguments, when `w <= 0` or `h <= 0` on entry, or the
width or height computed by the clipping lines is `<= 0`, `tft_fill_rect`
returns without issuing any event, on every transport. -/
theorem fill_rect_degenerate (x y w h : Int) (c : Nat) (o : Transport)
    (hx : isInt16 x) (hy : isInt16 y) (hw : isInt16 w) (hh : isInt16 h)
    (hdeg : w ≤ 0 ∨ h ≤ 0 ∨ clipW x w ≤ 0 ∨ clipH y h ≤ 0) :
    (tft_fill_rect x y w h c).run o = .done () [] := by
  have hg : x ≥ TFT_WIDTH ∨ y ≥ TFT_HEIGHT ∨ w ≤ 0 ∨ h ≤ 0 := by
    unfold isInt16 at hx hy hw hh
    unfold clipW clipH toInt16 TFT_WIDTH TFT_HEIGHT at hdeg
    unfold TFT_WIDTH TFT_HEIGHT
    rcases hdeg with h1 | h1 | h1 | h1
    · omega
    · omega
    · split at h1 <;> omega
    · split at h1 <;> omega
  unfold tft_fill_rect
  rw [if_pos hg]
  rfl

theorem fill_rect_degenerate_witness :
    (tft_fill_rect 480 0 5 5 TFT_RED).run okTransport = .done () [] ∧
    (tft_fill_rect 10 10 0 5 TFT_RED).run okTransport = .done () [] :=
  ⟨fill_rect_degenerate 480 0 5 5 TFT_RED okTransport (by decide) (by decide) (by decide)
      (by decide) (by decide),
   fill_rect_degenerate 10 10 0 5 TFT_RED okTransport (by decide) (by decide) (by decide)
      (by decide) (by decide)⟩

/-! ## Bring-up sequence -/

theorem traceOf_init_display : traceOf tft_init_display = initScript := by
  rw [tft_init_display_eq, traceOf_play]

/-- C8: in the trace of `tft_init_display`, software reset is followed by at
least 120 ms of delay before the next transfer, so is every sleep-out, display-on
is followed by at least 25 ms, and the delays sum to at least 265 ms. -/
theorem init_display_delays :
    (delaysAfter ILI9486_SWRESET (traceOf tft_init_display) ≠ [] ∧
      ∀ d ∈ delaysAfter ILI9486_SWRESET (traceOf tft_init_display), 120 ≤ d) ∧
    (delaysAfter ILI9486_SLPOUT (traceOf tft_init_display) ≠ [] ∧
      ∀ d ∈ delaysAfter ILI9486_SLPOUT (traceOf tft_init_display), 120 ≤ d) ∧
    (delaysAfter ILI9486_DISPON (traceOf tft_init_display) ≠ [] ∧
      ∀ d ∈ delaysAfter ILI9486_DISPON (traceOf tft_init_display), 25 ≤ d) ∧
    120 + 120 + 25 ≤ totalDelay (traceOf tft_init_display) := by
  rw [traceOf_init_display]
  decide

/-- C9: the trace of `tft_init_display` starts with software reset; its opcodes
contain reset, pixel format, PWCTR1, PWCTR2, PWCTR3, VCOM, MADCTL, display
function, frame rate, positive gamma, negative gamma, sleep-out, display-on,
normal-mode-on in this order; pixel format carries the single byte 0x55; each
gamma table carries 15 bytes; sleep-out is followed by a delay and display-on by
a strictly shorter one; normal-mode-on is the last transfer; every data transfer
has a command before it; and the trace is the same fixed list on every
fault-free run. -/
theorem init_display_order :
    (traceOf tft_init_display).head? = some (Event.transmit (cmdT ILI9486_SWRESET)) ∧
    List.Sublist
      [ILI9486_SWRESET, ILI9486_PIXFMT, ILI9486_PWCTR1, ILI9486_PWCTR2, ILI9486_PWCTR3,
        ILI9486_VMCTR1, ILI9486_MADCTL, ILI9486_DFUNCTR, ILI9486_FRMCTR1, ILI9486_GMCTRP1,
        ILI9486_GMCTRN1, ILI9486_SLPOUT, ILI9486_DISPON, ILI9486_NORON]
      (opcodes (traceOf tft_init_display)) ∧
    payloadsAfter ILI9486_PIXFMT (traceOf tft_init_display) = [[0x55]] ∧
    (payloadsAfter ILI9486_GMCTRP1 (traceOf tft_init_display)).map List.length = [15] ∧
    (payloadsAfter ILI9486_GMCTRN1 (traceOf tft_init_display)).map List.length = [15] ∧
    delaysAfter ILI9486_SLPOUT (traceOf tft_init_display) = [120, 120] ∧
    delaysAfter ILI9486_DISPON (traceOf tft_init_display) = [25] ∧
    (∀ s ∈ delaysAfter ILI9486_SLPOUT (traceOf tft_init_display),
      ∀ d ∈ delaysAfter ILI9486_DISPON (traceOf tft_init_display), 0 < d ∧ d < s) ∧
    (traceOf tft_init_display).getLast? = some (Event.transmit (cmdT ILI9486_NORON)) ∧
    (∀ pre t post, transfers (traceOf tft_init_display) = pre ++ t :: post → t.user ≠ 0 →
      ∃ c ∈ pre, c.user = 0) ∧
    (∀ o : Transport, (∀ k, o k = ESP_OK) →
      tft_init_display.run o = .done () (traceOf tft_init_display)) := by
  refine ⟨?_, ?_, ?_, ?_, ?_, ?_, ?_, ?_, ?_, ?_, ?_⟩
  · rw [traceOf_init_display]; decide
  · rw [traceOf_init_display]; decide
  · rw [traceOf_init_display]; decide
  · rw [traceOf_init_display]; decide
  · rw [traceOf_init_display]; decide
  · rw [traceOf_init_display]; decide
  · rw [traceOf_init_display]; decide
  · rw [traceOf_init_display]; decide
  · rw [traceOf_init_display]; decide
  · rw [traceOf_init_display]
    have hT : transfers initScript = cmdT ILI9486_SWRESET :: (transfers initScript).tail := by
      decide
    intro pre t post h hu
    rw [hT] at h
    cases pre with
    | nil =>
      rw [List.nil_append] at h
      have ht : t = cmdT ILI9486_SWRESET := (List.cons.inj h).1.symm
      rw [ht] at hu
      exact absurd rfl hu
    | cons c rest =>
      rw [List.cons_append] at h
      have hc : c = cmdT ILI9486_SWRESET := (List.cons.inj h).1.symm
      exact ⟨c, List.mem_cons_self c rest, by rw [hc]; rfl⟩
  · intro o ho
    rw [traceOf_init_display]
    unfold Drv.run
    rw [tft_init_display_eq, play_ok initScript o [] (fun j _ => ho _)]
    rfl

theorem init_display_order_witness :
    tft_init_display.run okTransport = .done () (traceOf tft_init_display) :=
  init_display_order.2.2.2.2.2.2.2.2.2.2 okTransport (fun _ => rfl)

/-! ## Transport faults -/

/-- C10: for every driver operation and every transport: if no transfer of the
operation faults, it returns with its full trace; if the k-th transfer is the
first to fault, the operation aborts right after issuing that transfer, having
issued exactly the fault-free trace up to and including it and nothing after. -/
theorem transport_fault_aborts (op : Op) (o : Transport) :
    ((∀ j, j < numTransfers (traceOf op.call) → o j = ESP_OK) →
      op.call.run o = .done () (traceOf op.call)) ∧
    (∀ k, k < numTransfers (traceOf op.call) → (∀ j, j < k → o j = ESP_OK) → o k ≠ ESP_OK →
      ∃ pre t post, traceOf op.call = pre ++ Event.transmit t :: post ∧
        numTransfers pre = k ∧
        op.call.run o = .aborted (pre ++ [Event.transmit t])) := by
  obtain ⟨es, hes⟩ := op.call_scripted
  rw [hes, traceOf_play]
  unfold Drv.run
  constructor
  · intro h
    rw [play_ok es o [] (by intro j hj; simpa [numTransfers, transfers] using h j hj)]
    rfl
  · intro k hk hok hf
    obtain ⟨pre, t, post, h1, h2, h3⟩ := play_fault es o [] k hk
      (by intro j hj; simpa [numTransfers, transfers] using hok j hj)
      (by simpa [numTransfers, transfers] using hf)
    exact ⟨pre, t, post, h1, h2, by simpa using h3⟩

theorem transport_fault_aborts_witness :
    (Op.call (.fill_screen TFT_RED)).run okTransport =
        .done () (traceOf (Op.call (.fill_screen TFT_RED))) ∧
    (∃ pre t post, traceOf (Op.call (.set_addr_window 0 0 479 319)) =
        pre ++ Event.transmit t :: post ∧
      numTransfers pre = 3 ∧
      (Op.call (.set_addr_window 0 0 479 319)).run (fun j => if j = 3 then 1 else ESP_OK) =
        .aborted (pre ++ [Event.transmit t])) :=
  ⟨(transport_fault_aborts (.fill_screen TFT_RED) okTransport).1 (fun _ _ => rfl),
   (transport_fault_aborts (.set_addr_window 0 0 479 319)
      (fun j => if j = 3 then 1 else ESP_OK)).2 3 (by decide) (by decide) (by decide)⟩

/-! ## Windows programmed from a non-negative origin -/

theorem windowAt_none (t : Transaction) (ts : List Transaction)
    (h : t ≠ cmdT ILI9486_CASET) : windowAt (t :: ts) = none := by
  unfold windowAt
  split
  · rename_i heq
    have ht := (List.cons.inj heq).1
    subst ht
    rw [if_neg (fun hc => h hc.1)]
  · rfl

theorem windows_skip (t : Transaction) (ts : List Transaction)
    (h : t ≠ cmdT ILI9486_CASET) : windows (t :: ts) = windows ts := by
  rw [windows, windowAt_none t ts h]

theorem dataT_ne_caset (v : Nat) : dataT v ≠ cmdT ILI9486_CASET :=
  fun h => Nat.one_ne_zero (congrArg Transaction.user h)

theorem rowT_ne_caset (n c : Nat) : rowT n c ≠ cmdT ILI9486_CASET :=
  fun h => Nat.one_ne_zero (congrArg Transaction.user h)

theorem windows_rows (m n c : Nat) : windows (List.replicate m (rowT n c)) = [] := by
  induction m with
  | zero => rfl
  | succ k ih =>
    rw [List.replicate_succ, windows_skip _ _ (rowT_ne_caset n c), ih]

/-- The only window in the transfers of a fill is the one its window program sets. -/
theorem windows_fill (a b p q m n c : Nat)
    (ha : a < 65536) (hb : b < 65536) (hp : p < 65536) (hq : q < 65536) :
    windows (transfers (windowScript a b p q) ++ List.replicate m (rowT n c)) =
      [{ x0 := a, y0 := b, x1 := p, y1 := q }] := by
  simp only [windowScript, transfers, List.cons_append, List.nil_append]
  rw [windows]
  have h0 : windowAt
      (cmdT ILI9486_CASET :: dataT (toUInt8 (a >>> 8)) :: dataT (toUInt8 (a &&& 0xFF)) ::
        dataT (toUInt8 (p >>> 8)) :: dataT (toUInt8 (p &&& 0xFF)) :: cmdT ILI9486_PASET ::
        dataT (toUInt8 (b >>> 8)) :: dataT (toUInt8 (b &&& 0xFF)) ::
        dataT (toUInt8 (q >>> 8)) :: dataT (toUInt8 (q &&& 0xFF)) :: cmdT ILI9486_RAMWR ::
        List.replicate m (rowT n c)) =
      some { x0 := a, y0 := b, x1 := p, y1 := q } := by
    have hbyte : ∀ v, dataByte (dataT v) = some v := fun _ => rfl
    simp only [windowAt, hbyte, and_self, if_true, Option.bind_eq_bind, Option.some_bind,
      toUInt8_shift _ ha, toUInt8_shift _ hb, toUInt8_shift _ hp, toUInt8_shift _ hq,
      toUInt8_and, hi_lo]
    rfl
  rw [h0]
  simp only
  rw [windows_skip _ _ (dataT_ne_caset _), windows_skip _ _ (dataT_ne_caset _),
    windows_skip _ _ (dataT_ne_caset _), windows_skip _ _ (dataT_ne_caset _),
    windows_skip _ _ (by decide), windows_skip _ _ (dataT_ne_caset _),
    windows_skip _ _ (dataT_ne_caset _), windows_skip _ _ (dataT_ne_caset _),
    windows_skip _ _ (dataT_ne_caset _), windows_skip _ _ (by decide), windows_rows]

/-- With a non-negative origin every window `tft_fill_rect` programs satisfies
the addressing-window invariant. -/
theorem fill_rect_window_valid (x y w h : Int) (c : Nat) (hx : 0 ≤ x) (hy : 0 ≤ y)
    (hc : c < 65536) :
    ∀ win ∈ windows (transfers (traceOf (tft_fill_rect x y w h c))), win.valid := by
  by_cases hg : x ≥ TFT_WIDTH ∨ y ≥ TFT_HEIGHT ∨ w ≤ 0 ∨ h ≤ 0
  · intro win hwin
    rw [tft_fill_rect_eq, traceOf_play, if_pos hg] at hwin
    simp [transfers, windows] at hwin
  · have hg1 := hg
    unfold TFT_WIDTH TFT_HEIGHT at hg1
    have hx1 : x < 480 := by omega
    have hy1 : y < 320 := by omega
    have hw : 0 < w := by omega
    have hh : 0 < h := by omega
    intro win hwin
    rw [fill_rect_transfers_eq x y w h c hx hx1 hy hy1 hw hh hc, tft_set_addr_window_eq,
      traceOf_play] at hwin
    rw [windows_fill _ _ _ _ _ _ _ (by omega) (by omega) (by omega) (by omega)] at hwin
    rw [List.mem_singleton] at hwin
    subst hwin
    unfold Window.valid TFT_WIDTH TFT_HEIGHT
    simp only
    omega

/-- The window `tft_fill_screen` programs is the full panel and satisfies the
addressing-window invariant. -/
theorem fill_screen_window_valid (c : Nat) (hc : c < 65536) :
    windows (transfers (traceOf (tft_fill_screen c))) =
        [{ x0 := 0, y0 := 0, x1 := 479, y1 := 319 }] ∧
      Window.valid { x0 := 0, y0 := 0, x1 := 479, y1 := 319 } := by
  constructor
  · rw [tft_fill_screen_eq, traceOf_play, transfers_append, transfers_append,
      transfers_replicate_transmit, toUInt8_shift c hc, toUInt8_and]
    have hrow : ({ length := 7680
                   tx_buffer := (List.replicate 480 [c >>> 8, c &&& 0xFF]).flatten
                   user := 1 } : Transaction) = rowT 480 c := rfl
    have hg : transfers [Event.gpio TFT_DC 1] = [] := rfl
    rw [hrow, hg, List.append_nil]
    exact windows_fill 0 0 479 319 320 480 c (by decide) (by decide) (by decide) (by decide)
  · decide

end TFT
